import Mathlib

/-!
Verification of the veripy runtime type-algebra engine.

The definitions below are a shallow embedding of the descriptor metaclasses in
`veripy/types/__init__.py`, `veripy/types/structural.py` and
`veripy/types/comparison.py`.  Python's `__getitem__` (construction),
`__instancecheck__` (membership) and `__subclasscheck__` (subtyping) methods
become Lean functions; methods that can raise return `Except Err`, methods
with no `raise` statement return `Bool` directly.  Atomic Python classes are
modelled by `PyType` (with `PyType.sub` playing `issubclass` on native
classes) and Python values by `PyVal`.
-/

namespace Veripy

/-- The exception kinds the engine can raise: `TypeError`, `SyntaxError` and
`AttributeError`. -/
inductive Err where
  | typeErr
  | synErr
  | attrErr
deriving DecidableEq, Repr

/-- Atomic (native) Python classes appearing as type arguments: `object`,
`int`, `bool`, `str`, `NoneType`, `tuple`, `list`, `dict`. -/
inductive PyType where
  | obj
  | intT
  | boolT
  | strT
  | noneT
  | tupleT
  | listT
  | dictT
deriving DecidableEq, Repr

/-- `issubclass` between atomic native classes: reflexive, everything is a
subclass of `object`, and `bool` is a subclass of `int` (as in Python). -/
def PyType.sub : PyType → PyType → Bool
  | _, .obj => true
  | .boolT, .intT => true
  | a, b => a == b

/-- Python values, as far as the membership checks inspect them.  `obj` is a
plain object carrying named attributes. -/
inductive PyVal where
  | noneV
  | int (n : Int)
  | bool (b : Bool)
  | str (s : String)
  | tuple (elems : List PyVal)
  | list (elems : List PyVal)
  | dict (entries : List (String × PyVal))
  | obj (attrs : List (String × PyVal))

/-- The native class of a value. -/
def PyVal.typeOf : PyVal → PyType
  | .noneV => .noneT
  | .int _ => .intT
  | .bool _ => .boolT
  | .str _ => .strT
  | .tuple _ => .tupleT
  | .list _ => .listT
  | .dict _ => .dictT
  | .obj _ => .obj

/-- `isinstance(v, t)` for an atomic type `t`. -/
def isinst (v : PyVal) (t : PyType) : Bool :=
  PyType.sub v.typeOf t

/-- Whether a value is a native `tuple` instance. -/
def PyVal.isTuple : PyVal → Bool
  | .tuple _ => true
  | _ => false

/-- Whether a value is a `collections.Mapping` (the model's mappings are
dicts). -/
def PyVal.isMapping : PyVal → Bool
  | .dict _ => true
  | _ => false

/-- Python truthiness of a `__uniontypes__`-style payload: `None` and the
empty collection are falsy. -/
def truthy {α : Type} : Option (List α) → Bool
  | Option.none => false
  | some ts => !ts.isEmpty

/-- A single type argument as the constructors receive it: a plain type, the
literal `None` (normalised to `NoneType`), or some non-type object. -/
inductive TypeArg (α : Type) where
  | typ (t : α)
  | noneArg
  | nonType
deriving DecidableEq, Repr

/-- Normalisation of one type argument (`if t is None: t = type(None)` then
`if not isinstance(t, type): raise TypeError`). -/
def normalizeArg {α : Type} (noneT : α) : TypeArg α → Except Err α
  | .typ t => .ok t
  | .noneArg => .ok noneT
  | .nonType => .error .typeErr

/-! ## Tuple descriptors (`structural.py`, `TupleMeta`) -/

/-- A tuple descriptor: `__tupletypes__` (`None` when unparameterised) and
`__strict__`. -/
structure TupleDesc where
  tupletypes : Option (List PyType)
  strict : Bool
deriving DecidableEq, Repr

/-- A tuple argument list may also contain the `Ellipsis` marker. -/
inductive TupleArg where
  | typ (t : PyType)
  | noneArg
  | nonType
  | ellipsisArg
deriving DecidableEq, Repr

/-- The collection loop of `TupleMeta.__getitem__` (lines 26-36): once an
ellipsis has been seen (`strict` cleared), any further argument is a
`SyntaxError`; `None` normalises to `NoneType`; non-types raise `TypeError`. -/
def tupleCollect : List TupleArg → List PyType → Bool → Except Err (List PyType × Bool)
  | [], acc, strict => .ok (acc, strict)
  | a :: rest, acc, strict =>
    if !strict then .error .synErr
    else
      match a with
      | .ellipsisArg => tupleCollect rest acc false
      | .noneArg => tupleCollect rest (acc ++ [PyType.noneT]) strict
      | .typ t => tupleCollect rest (acc ++ [t]) strict
      | .nonType => .error .typeErr

/-- `TupleMeta.__getitem__` (lines 19-42). -/
def tupleGetitem (self : TupleDesc) (args : List TupleArg) : Except Err TupleDesc :=
  if truthy self.tupletypes then .error .typeErr
  else
    match tupleCollect args [] true with
    | .error e => .error e
    | .ok (ts, strict) =>
      if ts.isEmpty then .error .typeErr
      else .ok ⟨some ts, strict⟩

/-- `TupleMeta.__instancecheck__` (lines 52-62): non-tuples are rejected
outright; an unparameterised (falsy) payload accepts any tuple; otherwise the
value needs at least as many elements as declared positions (exactly as many
when strict) and each declared position must accept the matching element. -/
def tupleInstancecheck (self : TupleDesc) (v : PyVal) : Bool :=
  match v with
  | .tuple elems =>
    match self.tupletypes with
    | Option.none => true
    | some [] => true
    | some ts =>
      if elems.length < ts.length then false
      else if self.strict && elems.length != ts.length then false
      else (elems.zip ts).all fun vt => isinst vt.1 vt.2
  | _ => false

/-- The class argument of `TupleMeta.__subclasscheck__`: an atomic native
class or another tuple descriptor. -/
inductive TupleCls where
  | atom (t : PyType)
  | tdesc (d : TupleDesc)

/-- `TupleMeta.__subclasscheck__` (lines 64-82).  For an atomic class the
native-tuple special case applies (the `super()` fallback is false: no native
class inherits from a synthetic descriptor class). -/
def tupleSubclasscheck (self : TupleDesc) : TupleCls → Bool
  | .atom t => PyType.sub t PyType.tupleT
  | .tdesc cls =>
    match self.tupletypes with
    | Option.none => true
    | some [] => true
    | some ts =>
      match cls.tupletypes with
      | Option.none => false
      | some cs =>
        if cs.length < ts.length then false
        else if self.strict && (!cls.strict || ts.length != cs.length) then false
        else (cs.zip ts).all fun p => PyType.sub p.1 p.2

/-! ## Record descriptors (`structural.py`, `RecordMeta`) -/

/-- A record descriptor: `__recordtypes__` (an ordered key → type mapping,
`None` when unparameterised) and `__strict__`. -/
structure RecordDesc where
  recordtypes : Option (List (String × PyType))
  strict : Bool
deriving DecidableEq, Repr

/-- A record argument: a slice `key : type` (whose type part may be `None` or
a non-type), the `Ellipsis` marker, or anything that is not a slice. -/
inductive RecordArg where
  | slice (key : String) (t : TypeArg PyType)
  | ellipsisArg
  | nonSlice
deriving DecidableEq, Repr

/-- Assignment into an ordered mapping: an existing key keeps its position and
has its value replaced; a new key goes at the end. -/
def upsert (k : String) (t : PyType) : List (String × PyType) → List (String × PyType)
  | [] => [(k, t)]
  | (k2, t2) :: rest => if k2 == k then (k, t) :: rest else (k2, t2) :: upsert k t rest

/-- The collection loop of `RecordMeta.__getitem__` (lines 115-129). -/
def recordCollect : List RecordArg → List (String × PyType) → Bool →
    Except Err (List (String × PyType) × Bool)
  | [], acc, strict => .ok (acc, strict)
  | a :: rest, acc, strict =>
    if !strict then .error .synErr
    else
      match a with
      | .ellipsisArg => recordCollect rest acc false
      | .nonSlice => .error .synErr
      | .slice k t =>
        match normalizeArg PyType.noneT t with
        | .error e => .error e
        | .ok ty => recordCollect rest (upsert k ty acc) strict

/-- `RecordMeta.__getitem__` (lines 107-135). -/
def recordGetitem (self : RecordDesc) (args : List RecordArg) : Except Err RecordDesc :=
  if truthy self.recordtypes then .error .typeErr
  else
    match recordCollect args [] true with
    | .error e => .error e
    | .ok (rts, strict) =>
      if rts.isEmpty then .error .typeErr
      else .ok ⟨some rts, strict⟩

/-- `RecordMeta.__instancecheck__` (lines 145-158): the value must be a
`collections.Mapping`; an unparameterised (falsy) payload accepts any
mapping; otherwise the mapping must be at least as long as the declared keys
(exactly as long when strict) and every declared key must be present with a
matching value (a missing key raises `LookupError`, caught as no-match). -/
def recordInstancecheck (self : RecordDesc) (v : PyVal) : Bool :=
  match v with
  | .dict entries =>
    match self.recordtypes with
    | Option.none => true
    | some [] => true
    | some rts =>
      if entries.length < rts.length then false
      else if self.strict && entries.length != rts.length then false
      else rts.all fun kt =>
        match entries.lookup kt.1 with
        | Option.none => false
        | some w => isinst w kt.2
  | _ => false

/-- The class argument of `RecordMeta.__subclasscheck__`. -/
inductive RecordCls where
  | atom (t : PyType)
  | rdesc (d : RecordDesc)

/-- `RecordMeta.__subclasscheck__` (lines 160-181).  For an atomic class the
`collections.Mapping` special case applies (`dict` is the modelled native
mapping class); the `super()` fallback is false. -/
def recordSubclasscheck (self : RecordDesc) : RecordCls → Bool
  | .atom t => t == PyType.dictT
  | .rdesc cls =>
    match self.recordtypes with
    | Option.none => true
    | some [] => true
    | some rts =>
      match cls.recordtypes with
      | Option.none => false
      | some crts =>
        if crts.length < rts.length then false
        else if self.strict && (!cls.strict || rts.length != crts.length) then false
        else rts.all fun kt =>
          match crts.lookup kt.1 with
          | Option.none => false
          | some t2 => PyType.sub t2 kt.2

/-- The attributes a record descriptor class actually carries (its class dict
holds `__recordtypes__` and `__strict__`; nothing else relevant is inherited). -/
inductive RecordAttr where
  | types (p : Option (List (String × PyType)))
  | strictFlag (b : Bool)

/-- Attribute lookup on a record descriptor class. -/
def recordGetattr (d : RecordDesc) : String → Option RecordAttr
  | "__recordtypes__" => some (.types d.recordtypes)
  | "__strict__" => some (.strictFlag d.strict)
  | _ => Option.none

/-- `RecordMeta.__eq__` (lines 137-140).  The source compares
`self.__strict__ == other.__strict`: inside `class RecordMeta` the private
name `__strict` is compiler-mangled to `_RecordMeta__strict`, an attribute no
record descriptor defines, so the access raises `AttributeError` before any
comparison happens. -/
def recordEq (self other : RecordDesc) : Except Err Bool :=
  match recordGetattr other "_RecordMeta__strict" with
  | Option.none => .error .attrErr
  | some (.strictFlag b) =>
    .ok (self.strict == b && self.recordtypes == other.recordtypes)
  | some (.types _) => .error .typeErr

/-! ## HasAttrs descriptors (`structural.py`, `HasAttrsMeta`) -/

/-- A structural descriptor: `__attrtypes__` (`None` when unparameterised). -/
structure HasAttrsDesc where
  attrtypes : Option (List (String × PyType))
deriving DecidableEq, Repr

/-- A HasAttrs argument: a slice `name : type` or anything else (including an
ellipsis, which `HasAttrsMeta` does not special-case). -/
inductive HasAttrsArg where
  | slice (key : String) (t : TypeArg PyType)
  | nonSlice
deriving DecidableEq, Repr

/-- The collection loop of `HasAttrsMeta.__getitem__` (lines 216-225). -/
def hasattrsCollect : List HasAttrsArg → List (String × PyType) →
    Except Err (List (String × PyType))
  | [], acc => .ok acc
  | a :: rest, acc =>
    match a with
    | .nonSlice => .error .synErr
    | .slice k t =>
      match normalizeArg PyType.noneT t with
      | .error e => .error e
      | .ok ty => hasattrsCollect rest (upsert k ty acc)

/-- `HasAttrsMeta.__getitem__` (lines 209-230). -/
def hasattrsGetitem (self : HasAttrsDesc) (args : List HasAttrsArg) :
    Except Err HasAttrsDesc :=
  if truthy self.attrtypes then .error .typeErr
  else
    match hasattrsCollect args [] with
    | .error e => .error e
    | .ok ats =>
      if ats.isEmpty then .error .typeErr
      else .ok ⟨some ats⟩

/-- `getattr` on a value: only modelled objects expose attributes. -/
def getattrVal : PyVal → String → Option PyVal
  | .obj attrs, k => attrs.lookup k
  | _, _ => Option.none

/-- `HasAttrsMeta.__instancecheck__` (lines 240-246): an unparameterised
(falsy) payload accepts anything; otherwise every declared attribute must be
present (an `AttributeError` is caught as no-match) with a matching value. -/
def hasattrsInstancecheck (self : HasAttrsDesc) (v : PyVal) : Bool :=
  match self.attrtypes with
  | Option.none => true
  | some [] => true
  | some ats =>
    ats.all fun kt =>
      match getattrVal v kt.1 with
      | Option.none => false
      | some w => isinst w kt.2

/-- The class argument of `HasAttrsMeta.__subclasscheck__`. -/
inductive HasAttrsCls where
  | atom (t : PyType)
  | hdesc (d : HasAttrsDesc)

/-- `HasAttrsMeta.__subclasscheck__` (lines 248-260): only meaningful against
another structural descriptor (the `super()` fallback is false for atomic
classes). -/
def hasattrsSubclasscheck (self : HasAttrsDesc) : HasAttrsCls → Bool
  | .atom _ => false
  | .hdesc cls =>
    match self.attrtypes with
    | Option.none => true
    | some [] => true
    | some ats =>
      match cls.attrtypes with
      | Option.none => false
      | some cats =>
        ats.all fun kt =>
          match cats.lookup kt.1 with
          | Option.none => false
          | some t2 => PyType.sub t2 kt.2

/-! ## Callable descriptors (`structural.py`, `CallableMeta`)

These are kept generic in the type universe `α` with an abstract `issubclass`
relation `sub`, since callable payloads may mention any descriptor. -/

/-- A callable descriptor: `__argtypes__` and `__returntype__`, both set
together by construction (`None` when unparameterised). -/
structure CallableDesc (α : Type) where
  payload : Option (List α × α)
deriving DecidableEq, Repr

/-- `CallableMeta.__getitem__` (lines 281-306): the trailing type is the
return type, the rest are positional parameter types; at least one type is
required; `None` normalises to `NoneType` and non-types raise. -/
def callableGetitem {α : Type} (noneT : α) (self : CallableDesc α)
    (args : List (TypeArg α)) : Except Err (CallableDesc α) :=
  if self.payload.isSome then .error .typeErr
  else if args.length < 1 then .error .typeErr
  else
    match args.getLast? with
    | Option.none => .error .typeErr
    | some last =>
      match args.dropLast.mapM (normalizeArg noneT) with
      | .error e => .error e
      | .ok argtypes =>
        match normalizeArg noneT last with
        | .error e => .error e
        | .ok ret => .ok ⟨some (argtypes, ret)⟩

/-- A declared annotation on a candidate's parameter or return: the literal
`None`, a type, or some non-type object. -/
inductive Ann (α : Type) where
  | noneA
  | typ (t : α)
  | nonType
deriving DecidableEq, Repr

/-- The type an annotation stands for after normalisation: `None` becomes
`NoneType`; a non-type annotation stands for no type and is not verified. -/
def annType {α : Type} (noneT : α) : Ann α → Option α
  | .noneA => some noneT
  | .typ t => some t
  | .nonType => Option.none

/-- One parameter of a candidate's introspected signature: whether its kind is
positional (`POSITIONAL_ONLY` or `POSITIONAL_OR_KEYWORD`), its declared
annotation (`Option.none` for `Parameter.empty`), and whether it has a
default. -/
structure Param (α : Type) where
  positional : Bool
  annot : Option (Ann α)
  hasDefault : Bool
deriving DecidableEq, Repr

/-- A candidate object checked for Callable membership: whether it is
invocable at all, plus its introspected signature. -/
structure Candidate (α : Type) where
  isCallable : Bool
  params : List (Param α)
  ret : Option (Ann α)
deriving DecidableEq, Repr

/-- The candidate's positional parameters, in order (line 335). -/
def positionalParams {α : Type} (c : Candidate α) : List (Param α) :=
  c.params.filter (·.positional)

/-- The parameter loop of `CallableMeta.__instancecheck__` (lines 340-353):
each expected type pops the next positional parameter (failing when none
remains); an annotated parameter must be contravariant (the expected type a
subtype of the annotation); once the expected types are consumed, every
remaining positional parameter must have a default. -/
def checkArgs {α : Type} (sub : α → α → Bool) (noneT : α) :
    List α → List (Param α) → Bool
  | [], remaining => remaining.all (·.hasDefault)
  | _ :: _, [] => false
  | t :: ts, p :: ps =>
    match p.annot with
    | Option.none => checkArgs sub noneT ts ps
    | some a =>
      match annType noneT a with
      | Option.none => checkArgs sub noneT ts ps
      | some a2 => sub t a2 && checkArgs sub noneT ts ps

/-- The return-annotation check of `CallableMeta.__instancecheck__` (lines
328-333): an absent or non-type annotation is not verified; a typed one must
be covariant (a subclass of the expected return type). -/
def callableRetOk {α : Type} (sub : α → α → Bool) (noneT : α) (rettype : α) :
    Option (Ann α) → Bool
  | Option.none => true
  | some a =>
    match annType noneT a with
    | Option.none => true
    | some r => sub r rettype

/-- `CallableMeta.__instancecheck__` (lines 317-355): non-invocables are
rejected; an unparameterised descriptor accepts any invocable; then the
return check and the parameter loop run. -/
def callableInstancecheck {α : Type} (sub : α → α → Bool) (noneT : α)
    (self : CallableDesc α) (c : Candidate α) : Bool :=
  if !c.isCallable then false
  else
    match self.payload with
    | Option.none => true
    | some (argtypes, rettype) =>
      if !callableRetOk sub noneT rettype c.ret then false
      else checkArgs sub noneT argtypes (positionalParams c)

/-- `CallableMeta.__subclasscheck__` (lines 357-378) between two callable
descriptors.  (`issubclass(cls, collections.Callable)` is false for every
synthetic descriptor class, so control always reaches the `CallableMeta`
branch here.)  An unparameterised `self` accepts anything; an unparameterised
`cls` is never a subclass; otherwise the return type is covariant, the
arities must agree, and each of `self`'s parameter types must be a subtype of
the corresponding one of `cls` (contravariant). -/
def callableSubclasscheck {α : Type} (sub : α → α → Bool)
    (self cls : CallableDesc α) : Bool :=
  match self.payload with
  | Option.none => true
  | some (selfArgs, selfRet) =>
    match cls.payload with
    | Option.none => false
    | some (clsArgs, clsRet) =>
      if !sub clsRet selfRet then false
      else if clsArgs.length != selfArgs.length then false
      else (selfArgs.zip clsArgs).all fun p => sub p.1 p.2

/-! ## Comparison descriptors (`comparison.py`, `ComparisonMeta`) -/

/-- The fixed operator a comparison descriptor class carries. -/
inductive CompOp where
  | eq
  | ne
  | ge
  | gt
  | le
  | lt
deriving DecidableEq, Repr

/-- A comparison descriptor: its `__operator__`, `__hasvalue__` flag and
`__value__` (comparison values are modelled as integers; `__value__` is only
ever read once `__hasvalue__` is set). -/
structure CompDesc where
  op : CompOp
  hasvalue : Bool
  value : Option Int
deriving DecidableEq, Repr

/-- Application of the stored operator (`operator.eq` and friends) between
the tested value and the stored value. -/
def applyCompOp : CompOp → Int → Int → Bool
  | .eq, a, b => a == b
  | .ne, a, b => a != b
  | .ge, a, b => b ≤ a
  | .gt, a, b => b < a
  | .le, a, b => a ≤ b
  | .lt, a, b => a < b

/-- `ComparisonMeta.__getitem__` (lines 67-74). -/
def compGetitem (self : CompDesc) (val : Int) : Except Err CompDesc :=
  if self.hasvalue then .error .typeErr
  else .ok ⟨self.op, true, some val⟩

/-- `ComparisonMeta.__instancecheck__` (lines 86-89): raises on an
unparameterised descriptor, otherwise applies the operator.  (A constructed
descriptor always stores a value, so the default `0` below is never read.) -/
def compInstancecheck (self : CompDesc) (v : Int) : Except Err Bool :=
  if !self.hasvalue then .error .typeErr
  else .ok (applyCompOp self.op v (self.value.getD 0))

/-- `ComparisonMeta.__subclasscheck__` (lines 91-92): `return False`, for any
class whatsoever and with no unparameterised-descriptor check. -/
def compSubclasscheck {β : Type} (_self : CompDesc) (_cls : β) : Bool :=
  false

/-! ## Satisfies descriptors (`comparison.py`, `SatisfiesMeta`) -/

/-- `Predicate = Callable[object, bool]` (comparison.py line 15). -/
def Predicate : CallableDesc PyType :=
  ⟨some ([PyType.obj], PyType.boolT)⟩

/-- A candidate predicate object: its introspectable signature (checked at
construction) together with its behaviour on values. -/
structure PredObj where
  cand : Candidate PyType
  fn : PyVal → Bool

/-- A Satisfies descriptor: `__predicate__` (`None` when unparameterised;
predicate objects are truthy). -/
structure SatDesc where
  predicate : Option PredObj

/-- `SatisfiesMeta.__getitem__` (lines 23-31): rejects re-parameterisation,
then requires `isinstance(pred, Predicate)` — the Callable engine run against
`Callable[object, bool]`. -/
def satisfiesGetitem (self : SatDesc) (pred : PredObj) : Except Err SatDesc :=
  if self.predicate.isSome then .error .typeErr
  else if !callableInstancecheck PyType.sub PyType.noneT Predicate pred.cand then
    .error .typeErr
  else .ok ⟨some pred⟩

/-- `SatisfiesMeta.__instancecheck__` (lines 41-44): raises on an
unparameterised descriptor, otherwise returns the predicate's result. -/
def satisfiesInstancecheck (self : SatDesc) (v : PyVal) : Except Err Bool :=
  match self.predicate with
  | Option.none => .error .typeErr
  | some p => .ok (p.fn v)

/-- `SatisfiesMeta.__subclasscheck__` (lines 46-47): `return False` for any
class, with no unparameterised-descriptor check. -/
def satisfiesSubclasscheck {β : Type} (_self : SatDesc) (_cls : β) : Bool :=
  false

/-! ## Union descriptors (`types/__init__.py`, `UnionMeta`)

Construction is generic in the type universe `α` with abstract `issubclass`
relation `sub`; the membership/subtype queries are modelled over atomic
`PyType` members (construction flattens nested unions, so members are plain
types). -/

/-- The result of a union/intersection construction: either a plain type (the
single remaining member is returned unwrapped) or a descriptor carrying a
member set. -/
inductive TypeOrUnion (α : Type) where
  | plain (t : α)
  | union (members : List α)
deriving DecidableEq, Repr

/-- One run of `UnionMeta.__getitem__`'s inner loop (lines 52-58) for a new
candidate `t1` over the current member set: if `t1` is a subclass of a member
the loop breaks (second component `true`) leaving the set as mutated so far;
any member that is a subclass of `t1` is discarded along the way. -/
def unionScan {α : Type} (sub : α → α → Bool) (t1 : α) : List α → List α × Bool
  | [] => ([], false)
  | t2 :: rest =>
    if sub t1 t2 then (t2 :: rest, true)
    else if sub t2 t1 then unionScan sub t1 rest
    else ((unionScan sub t1 rest).1.cons t2, (unionScan sub t1 rest).2)

/-- Processing one candidate: on a break the candidate is dropped, otherwise
it joins the member set (the `for`/`else` of lines 45-61). -/
def unionStep {α : Type} (sub : α → α → Bool) (acc : List α) (t1 : α) : List α :=
  match unionScan sub t1 acc with
  | (acc2, true) => acc2
  | (acc2, false) => acc2 ++ [t1]

/-- The minimisation over a list of already-validated candidate types. -/
def unionMembers {α : Type} (sub : α → α → Bool) (cands : List α) : List α :=
  cands.foldl (unionStep sub) []

/-- A union construction argument: a single type argument or a nested union
descriptor (carrying its payload). -/
inductive UnionArg (α : Type) where
  | arg (a : TypeArg α)
  | nested (payload : Option (List α))
deriving DecidableEq, Repr

/-- `expand_unions` (lines 36-43): nested unions contribute their members (an
unparameterised — falsy — nested union raises). -/
def expandUnions {α : Type} : List (UnionArg α) → Except Err (List (TypeArg α))
  | [] => .ok []
  | .arg a :: rest => (expandUnions rest).map (a :: ·)
  | .nested p :: rest =>
    match p with
    | some (t :: ts) => (expandUnions rest).map (((t :: ts).map .typ) ++ ·)
    | _ => .error .typeErr

/-- The candidate loop of lines 45-61: each expanded candidate is normalised
(`None` → `NoneType`, non-types raise) and folded into the member set. -/
def unionAccum {α : Type} (sub : α → α → Bool) (noneT : α) :
    List (TypeArg α) → List α → Except Err (List α)
  | [], acc => .ok acc
  | a :: rest, acc =>
    match normalizeArg noneT a with
    | .error e => .error e
    | .ok t1 => unionAccum sub noneT rest (unionStep sub acc t1)

/-- `UnionMeta.__getitem__` (lines 25-68): rejects re-parameterisation and an
empty argument list, expands nested unions, minimises, and returns the single
remaining type unwrapped or a new union descriptor. -/
def unionGetitem {α : Type} (sub : α → α → Bool) (noneT : α)
    (self : Option (List α)) (args : List (UnionArg α)) :
    Except Err (TypeOrUnion α) :=
  if truthy self then .error .typeErr
  else if args.isEmpty then .error .typeErr
  else
    match expandUnions args with
    | .error e => .error e
    | .ok cands =>
      match unionAccum sub noneT cands [] with
      | .error e => .error e
      | .ok ms =>
        match ms with
        | [m] => .ok (.plain m)
        | _ => .ok (.union ms)

/-- The class argument of `UnionMeta.__subclasscheck__`: an atomic class or
another union descriptor. -/
inductive UnionCls where
  | atom (t : PyType)
  | udesc (payload : Option (List PyType))

/-- `UnionMeta.__instancecheck__` (lines 78-82): raises when unparameterised
(falsy payload); otherwise a value belongs to the union when it belongs to
some member. -/
def unionInstancecheck (self : Option (List PyType)) (v : PyVal) : Except Err Bool :=
  match self with
  | Option.none => .error .typeErr
  | some [] => .error .typeErr
  | some ts => .ok (ts.any fun t => isinst v t)

/-- `UnionMeta.__subclasscheck__` (lines 84-96): raises when either union
operand is unparameterised; a union `cls` is a subclass when each of its
members is (recursively, each member — an atomic type — must be a subclass of
some member of `self`); a non-union `cls` must be a subclass of some member. -/
def unionSubclasscheck (self : Option (List PyType)) (cls : UnionCls) :
    Except Err Bool :=
  match self with
  | Option.none => .error .typeErr
  | some [] => .error .typeErr
  | some ts =>
    match cls with
    | .udesc Option.none => .error .typeErr
    | .udesc (some []) => .error .typeErr
    | .udesc (some cs) => .ok (cs.all fun c => ts.any fun t => PyType.sub c t)
    | .atom c => .ok (ts.any fun t => PyType.sub c t)

/-! ## Intersection descriptors (`types/__init__.py`, `IntersectionMeta`) -/

/-- One run of `IntersectionMeta.__getitem__`'s inner loop (lines 139-145):
the mirror of `unionScan` — the loop breaks when a member is already a
subclass of the candidate, and members the candidate is a subclass of are
discarded. -/
def intersectionScan {α : Type} (sub : α → α → Bool) (t1 : α) :
    List α → List α × Bool
  | [] => ([], false)
  | t2 :: rest =>
    if sub t2 t1 then (t2 :: rest, true)
    else if sub t1 t2 then intersectionScan sub t1 rest
    else ((intersectionScan sub t1 rest).1.cons t2, (intersectionScan sub t1 rest).2)

/-- Processing one intersection candidate (the `for`/`else` of lines 132-148). -/
def intersectionStep {α : Type} (sub : α → α → Bool) (acc : List α) (t1 : α) :
    List α :=
  match intersectionScan sub t1 acc with
  | (acc2, true) => acc2
  | (acc2, false) => acc2 ++ [t1]

/-- The intersection minimisation over already-validated candidates. -/
def intersectionMembers {α : Type} (sub : α → α → Bool) (cands : List α) : List α :=
  cands.foldl (intersectionStep sub) []

/-- `expand_intersections` (lines 123-130). -/
def expandIntersections {α : Type} : List (UnionArg α) → Except Err (List (TypeArg α))
  | [] => .ok []
  | .arg a :: rest => (expandIntersections rest).map (a :: ·)
  | .nested p :: rest =>
    match p with
    | some (t :: ts) => (expandIntersections rest).map (((t :: ts).map .typ) ++ ·)
    | _ => .error .typeErr

/-- The candidate loop of lines 132-148. -/
def intersectionAccum {α : Type} (sub : α → α → Bool) (noneT : α) :
    List (TypeArg α) → List α → Except Err (List α)
  | [], acc => .ok acc
  | a :: rest, acc =>
    match normalizeArg noneT a with
    | .error e => .error e
    | .ok t1 => intersectionAccum sub noneT rest (intersectionStep sub acc t1)

/-- `IntersectionMeta.__getitem__` (lines 112-155). -/
def intersectionGetitem {α : Type} (sub : α → α → Bool) (noneT : α)
    (self : Option (List α)) (args : List (UnionArg α)) :
    Except Err (TypeOrUnion α) :=
  if truthy self then .error .typeErr
  else if args.isEmpty then .error .typeErr
  else
    match expandIntersections args with
    | .error e => .error e
    | .ok cands =>
      match intersectionAccum sub noneT cands [] with
      | .error e => .error e
      | .ok ms =>
        match ms with
        | [m] => .ok (.plain m)
        | _ => .ok (.union ms)

/-- `IntersectionMeta.__instancecheck__` (lines 165-170): raises when
unparameterised; a value belongs when it belongs to every member. -/
def intersectionInstancecheck (self : Option (List PyType)) (v : PyVal) :
    Except Err Bool :=
  match self with
  | Option.none => .error .typeErr
  | some [] => .error .typeErr
  | some ts => .ok (ts.all fun t => isinst v t)

/-- `IntersectionMeta.__subclasscheck__` (lines 172-187): raises when either
intersection operand is unparameterised; an intersection `cls` is a subclass
when every member of `self` has some subclass among `cls`'s members; a
non-intersection `cls` must be a subclass of every member. -/
def intersectionSubclasscheck (self : Option (List PyType)) (cls : UnionCls) :
    Except Err Bool :=
  match self with
  | Option.none => .error .typeErr
  | some [] => .error .typeErr
  | some ts =>
    match cls with
    | .udesc Option.none => .error .typeErr
    | .udesc (some []) => .error .typeErr
    | .udesc (some cs) => .ok (ts.all fun t => cs.any fun c => PyType.sub c t)
    | .atom c => .ok (ts.all fun t => PyType.sub c t)

/-! ## Derived notions used by the statements -/

/-- The antichain property of a member list: no member is a subclass of
another member. -/
def antich {α : Type} (sub : α → α → Bool) (l : List α) : Prop :=
  l.Pairwise fun a b => sub a b = false ∧ sub b a = false

/-- The subtype relation between two callable descriptors as the spec words
it, stated for comparison with `callableSubclasscheck`: both are
parameterised, they declare the same arity, the return type is covariant and
each parameter type is contravariant. -/
def callableSubtypeSpec {α : Type} (sub : α → α → Bool)
    (self cls : CallableDesc α) : Prop :=
  ∃ sp cp, self.payload = some sp ∧ cls.payload = some cp ∧
    cp.1.length = sp.1.length ∧ sub cp.2 sp.2 = true ∧
    ∀ (i : Nat) t1 t2, sp.1[i]? = some t1 → cp.1[i]? = some t2 → sub t1 t2 = true

/-! ## Helper lemmas -/

/-- A `List.all` over a zip is the pointwise property at every index both
lists populate. -/
theorem zip_all_iff_getElem {γ δ : Type} (p : γ → δ → Bool) :
    ∀ (xs : List γ) (ys : List δ),
      (((xs.zip ys).all fun ab => p ab.1 ab.2) = true ↔
        ∀ (i : Nat) a b, xs[i]? = some a → ys[i]? = some b → p a b = true) := by
  intro xs
  induction xs with
  | nil =>
    intro ys
    simp only [List.zip_nil_left, List.all_nil, true_iff]
    intro i a b ha
    simp at ha
  | cons x xs ih =>
    intro ys
    cases ys with
    | nil =>
      simp only [List.zip_nil_right, List.all_nil, true_iff]
      intro i a b _ hb
      simp at hb
    | cons y ys =>
      simp only [List.zip_cons_cons, List.all_cons, Bool.and_eq_true]
      constructor
      · rintro ⟨h0, hrest⟩ i a b ha hb
        cases i with
        | zero =>
          simp only [List.getElem?_cons_zero, Option.some.injEq] at ha hb
          subst ha; subst hb; exact h0
        | succ i =>
          exact (ih ys).mp hrest i a b (by simpa using ha) (by simpa using hb)
      · intro hall
        exact ⟨hall 0 x y (by simp) (by simp),
          (ih ys).mpr fun i a b ha hb => hall (i + 1) a b (by simpa using ha) (by simpa using hb)⟩

/-- The inner union loop only ever removes members. -/
theorem unionScan_fst_sublist {α : Type} (sub : α → α → Bool) (t1 : α) :
    ∀ l : List α, (unionScan sub t1 l).1.Sublist l := by
  intro l
  induction l with
  | nil => exact List.Sublist.refl _
  | cons t2 rest ih =>
    by_cases h1 : sub t1 t2 = true
    · simp only [unionScan, h1, if_true]
      exact List.Sublist.refl _
    · by_cases h2 : sub t2 t1 = true
      · simp only [unionScan, h1, h2, if_true, if_false, Bool.false_eq_true]
        exact ih.cons t2
      · simp only [unionScan, h1, h2, if_false, Bool.false_eq_true]
        exact ih.cons₂ t2

/-- When the inner union loop completes without a break, the candidate is
unrelated (either way) to every surviving member. -/
theorem unionScan_no_break {α : Type} (sub : α → α → Bool) (t1 x : α) :
    ∀ l : List α, (unionScan sub t1 l).2 = false → x ∈ (unionScan sub t1 l).1 →
      sub t1 x = false ∧ sub x t1 = false := by
  intro l
  induction l with
  | nil => intro _ hx; simp [unionScan] at hx
  | cons t2 rest ih =>
    by_cases h1 : sub t1 t2 = true
    · intro hb; simp [unionScan, h1] at hb
    · by_cases h2 : sub t2 t1 = true
      · intro hb hx
        simp only [unionScan, h1, h2, if_true, if_false, Bool.false_eq_true] at hb hx
        exact ih hb hx
      · intro hb hx
        simp only [unionScan, h1, h2, if_false, Bool.false_eq_true,
          List.mem_cons] at hb hx
        rcases hx with rfl | hx
        · exact ⟨Bool.not_eq_true _ ▸ eq_false_of_ne_true h1,
            Bool.not_eq_true _ ▸ eq_false_of_ne_true h2⟩
        · exact ih hb hx

/-- Processing one candidate preserves the antichain property of the member
set. -/
theorem unionStep_antich {α : Type} (sub : α → α → Bool) (acc : List α) (t1 : α)
    (h : antich sub acc) : antich sub (unionStep sub acc t1) := by
  unfold unionStep
  rcases hs : unionScan sub t1 acc with ⟨acc2, broke⟩
  have hsub : acc2.Sublist acc := by
    have := unionScan_fst_sublist sub t1 acc
    rw [hs] at this; exact this
  cases broke
  · refine List.pairwise_append.2 ⟨h.sublist hsub, List.pairwise_singleton _ _, ?_⟩
    intro a ha b hb
    simp only [List.mem_singleton] at hb
    rw [hb]
    have hprops := unionScan_no_break sub t1 a acc (by rw [hs]) (by rw [hs]; exact ha)
    exact ⟨hprops.2, hprops.1⟩
  · exact h.sublist hsub

/-- The candidate loop preserves the antichain property. -/
theorem unionAccum_antich {α : Type} (sub : α → α → Bool) (noneT : α) :
    ∀ (args : List (TypeArg α)) (acc ms : List α), antich sub acc →
      unionAccum sub noneT args acc = .ok ms → antich sub ms := by
  intro args
  induction args with
  | nil =>
    intro acc ms h he
    simp only [unionAccum, Except.ok.injEq] at he
    exact he ▸ h
  | cons a rest ih =>
    intro acc ms h he
    simp only [unionAccum] at he
    rcases hn : normalizeArg noneT a with e | t1 <;> rw [hn] at he
    · cases he
    · exact ih _ _ (unionStep_antich sub acc t1 h) he

/-- The member set of any union descriptor `UnionMeta.__getitem__` returns is
an antichain. -/
theorem unionGetitem_antich {α : Type} (sub : α → α → Bool) (noneT : α)
    (self : Option (List α)) (args : List (UnionArg α)) (ms : List α)
    (h : unionGetitem sub noneT self args = .ok (.union ms)) : antich sub ms := by
  unfold unionGetitem at h
  split at h
  · cases h
  split at h
  · cases h
  rcases he : expandUnions (α := α) args with e | cands <;> rw [he] at h <;>
    dsimp only at h
  · cases h
  rcases ha : unionAccum sub noneT cands [] with e | ms2 <;> rw [ha] at h <;>
    dsimp only at h
  · cases h
  have hbase : antich sub ([] : List α) := List.Pairwise.nil
  have hms2 : antich sub ms2 := unionAccum_antich sub noneT cands [] ms2 hbase ha
  rcases ms2 with _ | ⟨m, _ | ⟨m2, more⟩⟩
  · simp only [Except.ok.injEq, TypeOrUnion.union.injEq] at h
    exact h ▸ hms2
  · simp at h
  · simp only [Except.ok.injEq, TypeOrUnion.union.injEq] at h
    exact h ▸ hms2

/-- The inner intersection loop only ever removes members. -/
theorem intersectionScan_fst_sublist {α : Type} (sub : α → α → Bool) (t1 : α) :
    ∀ l : List α, (intersectionScan sub t1 l).1.Sublist l := by
  intro l
  induction l with
  | nil => exact List.Sublist.refl _
  | cons t2 rest ih =>
    by_cases h1 : sub t2 t1 = true
    · simp only [intersectionScan, h1, if_true]
      exact List.Sublist.refl _
    · by_cases h2 : sub t1 t2 = true
      · simp only [intersectionScan, h1, h2, if_true, if_false, Bool.false_eq_true]
        exact ih.cons t2
      · simp only [intersectionScan, h1, h2, if_false, Bool.false_eq_true]
        exact ih.cons₂ t2

/-- When the inner intersection loop completes without a break, the candidate
is unrelated (either way) to every surviving member. -/
theorem intersectionScan_no_break {α : Type} (sub : α → α → Bool) (t1 x : α) :
    ∀ l : List α, (intersectionScan sub t1 l).2 = false →
      x ∈ (intersectionScan sub t1 l).1 →
      sub t1 x = false ∧ sub x t1 = false := by
  intro l
  induction l with
  | nil => intro _ hx; simp [intersectionScan] at hx
  | cons t2 rest ih =>
    by_cases h1 : sub t2 t1 = true
    · intro hb; simp [intersectionScan, h1] at hb
    · by_cases h2 : sub t1 t2 = true
      · intro hb hx
        simp only [intersectionScan, h1, h2, if_true, if_false, Bool.false_eq_true] at hb hx
        exact ih hb hx
      · intro hb hx
        simp only [intersectionScan, h1, h2, if_false, Bool.false_eq_true,
          List.mem_cons] at hb hx
        rcases hx with rfl | hx
        · exact ⟨Bool.not_eq_true _ ▸ eq_false_of_ne_true h2,
            Bool.not_eq_true _ ▸ eq_false_of_ne_true h1⟩
        · exact ih hb hx

/-- Processing one intersection candidate preserves the antichain property. -/
theorem intersectionStep_antich {α : Type} (sub : α → α → Bool) (acc : List α)
    (t1 : α) (h : antich sub acc) : antich sub (intersectionStep sub acc t1) := by
  unfold intersectionStep
  rcases hs : intersectionScan sub t1 acc with ⟨acc2, broke⟩
  have hsub : acc2.Sublist acc := by
    have := intersectionScan_fst_sublist sub t1 acc
    rw [hs] at this; exact this
  cases broke
  · refine List.pairwise_append.2 ⟨h.sublist hsub, List.pairwise_singleton _ _, ?_⟩
    intro a ha b hb
    simp only [List.mem_singleton] at hb
    rw [hb]
    have hprops := intersectionScan_no_break sub t1 a acc (by rw [hs]) (by rw [hs]; exact ha)
    exact ⟨hprops.2, hprops.1⟩
  · exact h.sublist hsub

/-- The intersection candidate loop preserves the antichain property. -/
theorem intersectionAccum_antich {α : Type} (sub : α → α → Bool) (noneT : α) :
    ∀ (args : List (TypeArg α)) (acc ms : List α), antich sub acc →
      intersectionAccum sub noneT args acc = .ok ms → antich sub ms := by
  intro args
  induction args with
  | nil =>
    intro acc ms h he
    simp only [intersectionAccum, Except.ok.injEq] at he
    exact he ▸ h
  | cons a rest ih =>
    intro acc ms h he
    simp only [intersectionAccum] at he
    rcases hn : normalizeArg noneT a with e | t1 <;> rw [hn] at he
    · cases he
    · exact ih _ _ (intersectionStep_antich sub acc t1 h) he

/-- The member set of any intersection descriptor
`IntersectionMeta.__getitem__` returns is an antichain. -/
theorem intersectionGetitem_antich {α : Type} (sub : α → α → Bool) (noneT : α)
    (self : Option (List α)) (args : List (UnionArg α)) (ms : List α)
    (h : intersectionGetitem sub noneT self args = .ok (.union ms)) :
    antich sub ms := by
  unfold intersectionGetitem at h
  split at h
  · cases h
  split at h
  · cases h
  rcases he : expandIntersections (α := α) args with e | cands <;> rw [he] at h <;>
    dsimp only at h
  · cases h
  rcases ha : intersectionAccum sub noneT cands [] with e | ms2 <;> rw [ha] at h <;>
    dsimp only at h
  · cases h
  have hbase : antich sub ([] : List α) := List.Pairwise.nil
  have hms2 : antich sub ms2 := intersectionAccum_antich sub noneT cands [] ms2 hbase ha
  rcases ms2 with _ | ⟨m, _ | ⟨m2, more⟩⟩
  · simp only [Except.ok.injEq, TypeOrUnion.union.injEq] at h
    exact h ▸ hms2
  · simp at h
  · simp only [Except.ok.injEq, TypeOrUnion.union.injEq] at h
    exact h ▸ hms2

/-- What a successful parameter loop guarantees: enough positional
parameters, contravariance at every annotated position consumed, and defaults
on every parameter beyond the expected count. -/
theorem checkArgs_spec {α : Type} (sub : α → α → Bool) (noneT : α) :
    ∀ (ts : List α) (ps : List (Param α)), checkArgs sub noneT ts ps = true →
      ts.length ≤ ps.length
      ∧ (∀ (i : Nat) t p a a2, ts[i]? = some t → ps[i]? = some p →
          p.annot = some a → annType noneT a = some a2 → sub t a2 = true)
      ∧ (∀ p ∈ ps.drop ts.length, p.hasDefault = true) := by
  intro ts
  induction ts with
  | nil =>
    intro ps h
    refine ⟨Nat.zero_le _, ?_, ?_⟩
    · intro i t p a a2 ht
      simp at ht
    · intro p hp
      simp only [checkArgs] at h
      simp only [List.length_nil, List.drop_zero] at hp
      exact List.all_eq_true.1 h p hp
  | cons t ts ih =>
    intro ps h
    cases ps with
    | nil => cases h
    | cons p ps =>
      have hrec : checkArgs sub noneT ts ps = true ∧
          (∀ a a2, p.annot = some a → annType noneT a = some a2 → sub t a2 = true) := by
        rcases hann : p.annot with _ | a
        · simp only [checkArgs, hann] at h
          exact ⟨h, by intro a a2 ha; cases ha⟩
        · rcases hat : annType noneT a with _ | a2
          · simp only [checkArgs, hann, hat] at h
            refine ⟨h, ?_⟩
            intro a0 a3 ha0 hat0
            cases ha0
            rw [hat] at hat0
            cases hat0
          · simp only [checkArgs, hann, hat, Bool.and_eq_true] at h
            refine ⟨h.2, ?_⟩
            intro a0 a3 ha0 hat0
            cases ha0
            rw [hat] at hat0
            cases hat0
            exact h.1
      obtain ⟨h1, h2, h3⟩ := ih ps hrec.1
      refine ⟨Nat.succ_le_succ h1, ?_, ?_⟩
      · intro i t2 p2 a a2 hts hps hann hat
        cases i with
        | zero =>
          simp only [List.getElem?_cons_zero, Option.some.injEq] at hts hps
          subst hts
          subst hps
          exact hrec.2 a a2 hann hat
        | succ i =>
          exact h2 i t2 p2 a a2 (by simpa using hts) (by simpa using hps) hann hat
      · simpa using h3

/-! ## The claims -/

/-- Claim C1, counterexample: membership on the bare, never-parameterised
`Tuple` symbol does not raise a usage error — it returns a boolean (`False`
for a non-tuple value, `True` for a tuple), contradicting the claim that
every unparameterised descriptor kind raises. -/
theorem unparameterised_tuple_membership_boolean :
    tupleInstancecheck ⟨Option.none, true⟩ (PyVal.int 1) = false
    ∧ tupleInstancecheck ⟨Option.none, true⟩ (PyVal.tuple []) = true :=
  ⟨rfl, rfl⟩

/-- Claim C1, amended: on never-parameterised descriptors only Union and
Intersection raise a usage error from both membership and subtype queries,
and Satisfies and the comparison descriptors raise from membership; the bare
Tuple, Record, HasAttrs and Callable return booleans (membership reduces to
the native shape check, and subtype queries against another descriptor of the
same kind return true), and subtype queries against the bare Satisfies or
comparison descriptors return false rather than raising. -/
theorem unparameterised_descriptor_behaviour :
    (∀ v, unionInstancecheck Option.none v = .error .typeErr)
    ∧ (∀ cls, unionSubclasscheck Option.none cls = .error .typeErr)
    ∧ (∀ v, intersectionInstancecheck Option.none v = .error .typeErr)
    ∧ (∀ cls, intersectionSubclasscheck Option.none cls = .error .typeErr)
    ∧ (∀ v, satisfiesInstancecheck ⟨Option.none⟩ v = .error .typeErr)
    ∧ (∀ op v, compInstancecheck ⟨op, false, Option.none⟩ v = .error .typeErr)
    ∧ (∀ cls : PyType, satisfiesSubclasscheck ⟨Option.none⟩ cls = false)
    ∧ (∀ op (cls : PyType), compSubclasscheck ⟨op, false, Option.none⟩ cls = false)
    ∧ (∀ v, tupleInstancecheck ⟨Option.none, true⟩ v = v.isTuple)
    ∧ (∀ v, recordInstancecheck ⟨Option.none, true⟩ v = v.isMapping)
    ∧ (∀ v, hasattrsInstancecheck ⟨Option.none⟩ v = true)
    ∧ (∀ c, callableInstancecheck PyType.sub PyType.noneT ⟨Option.none⟩ c = c.isCallable)
    ∧ (∀ d, tupleSubclasscheck ⟨Option.none, true⟩ (.tdesc d) = true)
    ∧ (∀ d, recordSubclasscheck ⟨Option.none, true⟩ (.rdesc d) = true)
    ∧ (∀ d, hasattrsSubclasscheck ⟨Option.none⟩ (.hdesc d) = true)
    ∧ (∀ cls, callableSubclasscheck PyType.sub ⟨Option.none⟩ cls = true) := by
  refine ⟨fun v => rfl, fun cls => rfl, fun v => rfl, fun cls => rfl, fun v => rfl,
    fun op v => rfl, fun cls => rfl, fun op cls => rfl, ?_, ?_, fun v => rfl, ?_,
    fun d => rfl, fun d => rfl, fun d => rfl, fun cls => rfl⟩
  · intro v; cases v <;> rfl
  · intro v; cases v <;> rfl
  · intro c
    unfold callableInstancecheck
    cases hc : c.isCallable <;> simp [hc]

/-- Claim C3: `RecordMeta.__eq__` evaluated at the failing input — two
identically parameterised record descriptors.  Instead of returning `True` it
raises `AttributeError`, because the source reads `other.__strict` (mangled
to the nonexistent `_RecordMeta__strict`) where it means `other.__strict__`;
structurally equal record descriptors therefore cannot be compared or used as
map keys at all. -/
theorem record_eq_attribute_error :
    recordEq ⟨some [("x", PyType.intT)], true⟩ ⟨some [("x", PyType.intT)], true⟩
      = .error .attrErr :=
  rfl

/-- Claim C6: a subtype query against any parameterised comparison descriptor
(`ComparisonMeta.__subclasscheck__`) returns `false` for every queried class,
and — being an unconditional `return False` — can neither return true nor
raise. -/
theorem comparison_subtype_always_false (op : CompOp) (v : Int) {β : Type} (cls : β) :
    compSubclasscheck ⟨op, true, some v⟩ cls = false :=
  rfl

/-- Claim C8: a strict `Tuple[int, str]` accepts `(1, "a")` and rejects
`(1, "a", "extra")`; an open `Tuple[int, ...]` accepts `(1, "a", 2)`; and in
general a parameterised tuple descriptor accepts exactly the tuples with at
least as many elements as declared positions (exactly as many when strict)
whose elements match the declared position types. -/
theorem tuple_membership_strict_and_open :
    tupleInstancecheck ⟨some [PyType.intT, PyType.strT], true⟩
      (.tuple [.int 1, .str "a"]) = true
    ∧ tupleInstancecheck ⟨some [PyType.intT, PyType.strT], true⟩
      (.tuple [.int 1, .str "a", .str "extra"]) = false
    ∧ tupleInstancecheck ⟨some [PyType.intT], false⟩
      (.tuple [.int 1, .str "a", .int 2]) = true
    ∧ (∀ (t : PyType) (ts : List PyType) (strict : Bool) (elems : List PyVal),
        tupleInstancecheck ⟨some (t :: ts), strict⟩ (.tuple elems) = true ↔
          (t :: ts).length ≤ elems.length
          ∧ (strict = true → elems.length = (t :: ts).length)
          ∧ ∀ (i : Nat) v ty, elems[i]? = some v → (t :: ts)[i]? = some ty →
              isinst v ty = true) := by
  refine ⟨rfl, rfl, rfl, ?_⟩
  intro t ts strict elems
  simp only [tupleInstancecheck]
  constructor
  · intro h
    by_cases hlen : elems.length < (t :: ts).length
    · rw [if_pos hlen] at h
      cases h
    · rw [if_neg hlen] at h
      by_cases hstrict : (strict && elems.length != (t :: ts).length) = true
      · rw [if_pos hstrict] at h
        cases h
      · rw [if_neg hstrict] at h
        simp only [Bool.and_eq_true, bne_iff_ne, ne_eq, not_and, not_not] at hstrict
        exact ⟨Nat.le_of_not_lt hlen, hstrict,
          (zip_all_iff_getElem _ elems (t :: ts)).mp h⟩
  · rintro ⟨h1, h2, h3⟩
    rw [if_neg (Nat.not_lt.2 h1)]
    have hstrict : (strict && elems.length != (t :: ts).length) = false := by
      cases strict
      · rfl
      · simp [h2 rfl]
    rw [hstrict]
    simp only [Bool.false_eq_true, if_false]
    exact (zip_all_iff_getElem _ elems (t :: ts)).mpr h3

/-- Claim C9: every already-parameterised descriptor of every kind rejects a
second parameterisation with a `TypeError`, whatever the new arguments are
(and, the construction functions being pure, the failed attempt leaves the
original payload untouched). -/
theorem reparameterisation_rejected :
    (∀ (t : PyType) ts args,
      unionGetitem PyType.sub PyType.noneT (some (t :: ts)) args = .error .typeErr)
    ∧ (∀ (t : PyType) ts args,
      intersectionGetitem PyType.sub PyType.noneT (some (t :: ts)) args = .error .typeErr)
    ∧ (∀ (t : PyType) ts strict args,
      tupleGetitem ⟨some (t :: ts), strict⟩ args = .error .typeErr)
    ∧ (∀ k (t : PyType) rts strict args,
      recordGetitem ⟨some ((k, t) :: rts), strict⟩ args = .error .typeErr)
    ∧ (∀ k (t : PyType) ats args,
      hasattrsGetitem ⟨some ((k, t) :: ats)⟩ args = .error .typeErr)
    ∧ (∀ (pr : List PyType × PyType) args,
      callableGetitem PyType.noneT ⟨some pr⟩ args = .error .typeErr)
    ∧ (∀ op (v : Option Int) w, compGetitem ⟨op, true, v⟩ w = .error .typeErr)
    ∧ (∀ p q, satisfiesGetitem ⟨some p⟩ q = .error .typeErr) :=
  ⟨fun t ts args => rfl, fun t ts args => rfl, fun t ts strict args => rfl,
    fun k t rts strict args => rfl, fun k t ats args => rfl, fun pr args => rfl,
    fun op v w => rfl, fun p q => rfl⟩

/-- Claim C10: tuple membership (`TupleMeta.__instancecheck__`) returns
`false` for every value that is not a native tuple instance — lists included
— whatever the descriptor's payload and strictness are. -/
theorem tuple_membership_only_tuples (d : TupleDesc) (v : PyVal)
    (h : v.isTuple = false) : tupleInstancecheck d v = false := by
  cases v <;> first
    | rfl
    | (exfalso; cases h)

/-- Claim C10, witness: a list with the right element types is still
rejected. -/
theorem tuple_membership_only_tuples_witness :
    tupleInstancecheck ⟨some [PyType.intT], true⟩ (PyVal.list [PyVal.int 1]) = false :=
  tuple_membership_only_tuples ⟨some [PyType.intT], true⟩ (PyVal.list [PyVal.int 1]) rfl

/-- Claim C2, counterexample: `CallableMeta.__subclasscheck__` reports a
parameterised callable descriptor a subtype of the bare, unparameterised
`Callable` symbol — the result is `true` although the claimed condition
(both operands parameterised) fails. -/
theorem callable_subtype_unparameterised_self :
    callableSubclasscheck PyType.sub (⟨Option.none⟩ : CallableDesc PyType)
      ⟨some ([PyType.intT], PyType.boolT)⟩ = true
    ∧ ¬ callableSubtypeSpec PyType.sub (⟨Option.none⟩ : CallableDesc PyType)
      ⟨some ([PyType.intT], PyType.boolT)⟩ := by
  refine ⟨rfl, ?_⟩
  rintro ⟨sp, cp, hsp, -⟩
  cases hsp

/-- Claim C2, amended: provided `self` is parameterised, another callable
descriptor is reported a subtype of `self` iff it is parameterised, declares
the same arity, its return type is a subtype of `self`'s (covariant), and at
every position `self`'s parameter type is a subtype of its parameter type
(contravariant); an unparameterised `self`, however, reports every callable
descriptor a subtype. -/
theorem callable_subtype_characterisation {α : Type} (sub : α → α → Bool)
    (self cls : CallableDesc α) (sargs : List α) (sret : α)
    (hp : self.payload = some (sargs, sret)) :
    callableSubclasscheck sub self cls = true ↔ callableSubtypeSpec sub self cls := by
  unfold callableSubclasscheck
  rw [hp]
  rcases hc : cls.payload with _ | ⟨cargs, cret⟩
  · constructor
    · intro h
      cases h
    · rintro ⟨sp, cp, -, hcp, -⟩
      rw [hc] at hcp
      cases hcp
  · dsimp only
    constructor
    · intro h
      by_cases hret : sub cret sret = true
      · rw [hret] at h
        simp only [Bool.not_true, Bool.false_eq_true, if_false] at h
        by_cases hlen : cargs.length = sargs.length
        · rw [if_neg (by simp [hlen])] at h
          exact ⟨(sargs, sret), (cargs, cret), hp, hc, hlen, hret,
            (zip_all_iff_getElem _ sargs cargs).mp h⟩
        · rw [if_pos (by simpa using hlen)] at h
          cases h
      · rw [Bool.not_eq_true] at hret
        rw [hret] at h
        simp at h
    · rintro ⟨sp, cp, hsp, hcp, hlen, hret, hpoint⟩
      rw [hp] at hsp
      cases hsp
      rw [hc] at hcp
      cases hcp
      rw [hret]
      simp only [Bool.not_true, Bool.false_eq_true, if_false]
      rw [if_neg (by simp [hlen])]
      exact (zip_all_iff_getElem _ sargs cargs).mpr hpoint

/-- Claim C2, witness: `Callable[int, bool]` accepts
`Callable[object, bool]` as a subtype (broader parameter, same return), and
the characterisation applies to it. -/
theorem callable_subtype_characterisation_witness :
    callableSubtypeSpec PyType.sub
      (⟨some ([PyType.intT], PyType.boolT)⟩ : CallableDesc PyType)
      ⟨some ([PyType.obj], PyType.boolT)⟩ :=
  (callable_subtype_characterisation PyType.sub
    ⟨some ([PyType.intT], PyType.boolT)⟩ ⟨some ([PyType.obj], PyType.boolT)⟩
    [PyType.intT] PyType.boolT rfl).mp rfl

/-- Claim C4: for types A subtype-of B, `Union[A, B]` collapses to the plain
type B and `Intersection[A, B]` to the plain type A (with `Union[A, A] = A`
as the idempotent special case), and the member set of every union or
intersection descriptor either construction returns is an antichain — no
member a subclass of another. -/
theorem union_intersection_minimisation {α : Type} (sub : α → α → Bool)
    (noneT : α) (A B : α) (hAB : sub A B = true) (hanti : sub B A = true → A = B)
    (hAA : sub A A = true) :
    unionGetitem sub noneT Option.none
      [UnionArg.arg (TypeArg.typ A), UnionArg.arg (TypeArg.typ B)]
      = .ok (.plain B)
    ∧ intersectionGetitem sub noneT Option.none
      [UnionArg.arg (TypeArg.typ A), UnionArg.arg (TypeArg.typ B)]
      = .ok (.plain A)
    ∧ unionGetitem sub noneT Option.none
      [UnionArg.arg (TypeArg.typ A), UnionArg.arg (TypeArg.typ A)]
      = .ok (.plain A)
    ∧ (∀ (self : Option (List α)) (args : List (UnionArg α)) (ms : List α),
        unionGetitem sub noneT self args = .ok (.union ms) → antich sub ms)
    ∧ (∀ (self : Option (List α)) (args : List (UnionArg α)) (ms : List α),
        intersectionGetitem sub noneT self args = .ok (.union ms) → antich sub ms) := by
  refine ⟨?_, ?_, ?_, unionGetitem_antich sub noneT, intersectionGetitem_antich sub noneT⟩
  · by_cases hBA : sub B A = true
    · have heq := hanti hBA
      subst heq
      simp [unionGetitem, expandUnions, unionAccum, unionStep, unionScan,
        normalizeArg, truthy, Except.map, hAB]
    · rw [Bool.not_eq_true] at hBA
      simp [unionGetitem, expandUnions, unionAccum, unionStep, unionScan,
        normalizeArg, truthy, Except.map, hAB, hBA]
  · simp [intersectionGetitem, expandIntersections, intersectionAccum,
      intersectionStep, intersectionScan, normalizeArg, truthy, Except.map, hAB]
  · simp [unionGetitem, expandUnions, unionAccum, unionStep, unionScan,
      normalizeArg, truthy, Except.map, hAA]

/-- Claim C4, witness: `bool` is a subclass of `int`, so `Union[bool, int]`
is plain `int`; `Union[int, str]` keeps both members, and they form an
antichain. -/
theorem union_intersection_minimisation_witness :
    unionGetitem PyType.sub PyType.noneT Option.none
      [UnionArg.arg (TypeArg.typ PyType.boolT), UnionArg.arg (TypeArg.typ PyType.intT)]
      = .ok (.plain PyType.intT)
    ∧ antich PyType.sub [PyType.intT, PyType.strT] :=
  ⟨(union_intersection_minimisation PyType.sub PyType.noneT PyType.boolT PyType.intT
      (by decide) (by decide) (by decide)).1,
    (union_intersection_minimisation PyType.sub PyType.noneT PyType.boolT PyType.intT
      (by decide) (by decide) (by decide)).2.2.2.1 Option.none
      [UnionArg.arg (TypeArg.typ PyType.intT), UnionArg.arg (TypeArg.typ PyType.strT)]
      [PyType.intT, PyType.strT] rfl⟩

/-- Claim C5: whenever a parameterised callable descriptor with N expected
parameter types accepts a candidate, necessarily (a) any typed return
annotation of the candidate is a subtype of the expected return type, (b) the
candidate has at least N positional parameters and at each annotated one of
the first N the expected type is a subtype of the annotation, and (c) every
positional parameter beyond the first N has a default. -/
theorem callable_membership_necessary {α : Type} (sub : α → α → Bool) (noneT : α)
    (self : CallableDesc α) (c : Candidate α) (argtypes : List α) (rettype : α)
    (hp : self.payload = some (argtypes, rettype))
    (hm : callableInstancecheck sub noneT self c = true) :
    (∀ a r, c.ret = some a → annType noneT a = some r → sub r rettype = true)
    ∧ argtypes.length ≤ (positionalParams c).length
    ∧ (∀ (i : Nat) t p a a2, argtypes[i]? = some t →
        (positionalParams c)[i]? = some p → p.annot = some a →
        annType noneT a = some a2 → sub t a2 = true)
    ∧ (∀ p ∈ (positionalParams c).drop argtypes.length, p.hasDefault = true) := by
  unfold callableInstancecheck at hm
  rcases hcall : c.isCallable with _ | _
  · rw [hcall] at hm
    cases hm
  rw [hcall] at hm
  rw [hp] at hm
  dsimp only at hm
  by_cases hret : callableRetOk sub noneT rettype c.ret = true
  · rw [hret] at hm
    simp only [Bool.not_true, Bool.false_eq_true, if_false] at hm
    obtain ⟨h1, h2, h3⟩ := checkArgs_spec sub noneT argtypes (positionalParams c) hm
    refine ⟨?_, h1, h2, h3⟩
    intro a r ha hr
    unfold callableRetOk at hret
    rw [ha] at hret
    dsimp only at hret
    rw [hr] at hret
    exact hret
  · rw [Bool.not_eq_true] at hret
    rw [hret] at hm
    simp at hm

/-- Claim C5, witness: `Callable[int, bool]` accepts a callable declared
`(x : object) -> bool`, and the necessary conditions hold for it. -/
theorem callable_membership_necessary_witness :
    ([PyType.intT]).length ≤
      (positionalParams
        (⟨true, [⟨true, some (.typ PyType.obj), false⟩],
          some (.typ PyType.boolT)⟩ : Candidate PyType)).length :=
  (callable_membership_necessary PyType.sub PyType.noneT
    ⟨some ([PyType.intT], PyType.boolT)⟩
    ⟨true, [⟨true, some (.typ PyType.obj), false⟩], some (.typ PyType.boolT)⟩
    [PyType.intT] PyType.boolT rfl rfl).2.1

/-- Claim C7: constructing `Satisfies[pred]` succeeds exactly when `pred`
passes the membership test of `Predicate = Callable[object, bool]` (which is
false for every non-invocable and for every invocable whose declared
signature fails that contract) and fails with a `TypeError` otherwise; on the
successfully constructed descriptor, membership of a value is exactly the
boolean the stored predicate returns on it. -/
theorem satisfies_construction_and_membership (p : PredObj) :
    satisfiesGetitem ⟨Option.none⟩ p =
      (if callableInstancecheck PyType.sub PyType.noneT Predicate p.cand
        then .ok ⟨some p⟩ else .error .typeErr)
    ∧ (∀ v, satisfiesInstancecheck ⟨some p⟩ v = .ok (p.fn v)) := by
  refine ⟨?_, fun v => rfl⟩
  unfold satisfiesGetitem
  rcases hcheck : callableInstancecheck PyType.sub PyType.noneT Predicate p.cand
    with _ | _ <;> simp [hcheck]

end Veripy
